import Mathlib

/-!
Shallow embedding of the detection-arbitration and duplicate-suppression
pipeline of `src/components/BarcodeScanner.tsx`, together with the
consumer-side duplicate filter of `src/App.tsx`.

Modelling conventions:
* a JavaScript `Map<string, …>` is an association list in insertion order
  (JS `Map` iterates entries in insertion order);
* `Date.now()` timestamps are `Nat` milliseconds;
* the promise returned by an `async` function is an `Except Unit String`
  (`.error` models a rejected promise, `.ok` a resolved one).
-/

namespace Scanner

/-- Record stored per value in `candidateBarcodesRef`
(`\x7b format, source, count, firstSeen \x7d`). -/
structure CandidateData where
  format : String
  source : String
  count : Nat
  firstSeen : Nat
  deriving Repr, DecidableEq

/-- One entry of the candidate map: the barcode value (the map key) paired
with its data. -/
abbrev Candidate := String × CandidateData

/-- State of the refs driving the barcode pipeline: `candidateBarcodesRef`,
`lastBarcodeRef`, `lastScanTimeRef`, the `isProcessing` flag, and the
pending `barcodeSelectionTimerRef` timeout. -/
structure PipelineState where
  candidates : List Candidate
  lastBarcode : String
  lastScanTime : Nat
  isProcessing : Bool
  selectionTimer : Option Nat
  deriving Repr, DecidableEq

/-- The `ScanResult` interface: an optional barcode (value, format) and an
optional text field. -/
structure ScanResult where
  barcode : Option (String × String)
  text : Option String
  deriving Repr, DecidableEq

/-- Observable outcome of the OpenRouter call inside `extractTextWithAI`:
the API key may be missing, `fetch`/`response.json()` may throw, the parsed
JSON may carry an `error` field, may lack `choices[0].message.content`, or
may carry a content string. -/
inductive AIResponse where
  | noApiKey
  | fetchThrows
  | errorPayload
  | noChoices
  | content (s : String)
  deriving Repr, DecidableEq

/-- Executable model of JavaScript `String.prototype.trim`: drop leading
and trailing whitespace characters. -/
def jsTrim (s : String) : String :=
  ⟨((s.data.dropWhile Char.isWhitespace).reverse.dropWhile
      Char.isWhitespace).reverse⟩

/-- Body of the `try` block of `extractTextWithAI`; `.error` marks a thrown
exception (network failure, JSON parse failure).  The missing-key, error
payload and missing-choices branches all return the empty string; a content
string is trimmed and the `NO_TEXT_FOUND` sentinel or an empty trim also
yields the empty string. -/
def extractTextBody : AIResponse → Except Unit String
  | .noApiKey => .ok ""
  | .fetchThrows => .error ()
  | .errorPayload => .ok ""
  | .noChoices => .ok ""
  | .content s =>
      let text := jsTrim s
      if text = "NO_TEXT_FOUND" ∨ text = "" then .ok "" else .ok text

/-- Full `extractTextWithAI`: the `try` body wrapped by the trailing
catch-all handler that returns the empty string.  The resulting `Except`
models the returned promise: a `.error` value would mean the promise
rejects. -/
def extractTextWithAI (r : AIResponse) : Except Unit String :=
  match extractTextBody r with
  | .ok s => .ok s
  | .error _ => .ok ""

/-- Text field written by the enrichment continuations of
`selectBestBarcode`: the `.then` handler writes
the extracted text, replacing an empty one with `(No text found)`; the
`.catch` handler writes `(AI extraction failed)`. -/
def enrichedText : Except Unit String → String
  | .ok t => if t = "" then "(No text found)" else t
  | .error _ => "(AI extraction failed)"

/-- First pass of `selectBestBarcode`: does any candidate carry the format
string `code_128`? -/
def hasCode128 (cs : List Candidate) : Bool :=
  cs.any (fun c => c.2.format == "code_128")

/-- One iteration of the second pass of `selectBestBarcode`.  The
accumulator is `none` while `bestBarcode` is the empty string and
`bestData` is `null`;
the JS guard `!bestBarcode` on a non-null accumulator is the
`length = 0` test. -/
def selStep (has : Bool) (best : Option Candidate) (c : Candidate) :
    Option Candidate :=
  if has = true ∧ c.2.format ≠ "code_128" then best
  else
    match best with
    | none => some c
    | some b =>
        if b.1.length = 0 ∨ c.1.length > b.1.length ∨
            (c.1.length = b.1.length ∧ c.2.count > b.2.count) then some c
        else some b

/-- Second pass of `selectBestBarcode`, folding over the candidate map in
insertion order with the first pass's `hasCode128` flag. -/
def selectLoop (cs : List Candidate) : Option Candidate :=
  cs.foldl (selStep (hasCode128 cs)) none

/-- Selection outcome of `selectBestBarcode`: the loop result unless the
final `bestBarcode` is still falsy (`if (!bestBarcode) return`). -/
def selectWinner (cs : List Candidate) : Option Candidate :=
  match selectLoop cs with
  | some b => if b.1.length = 0 then none else some b
  | none => none

/-- Full `selectBestBarcode` as a state transformer.  The early returns
(empty candidate set, `isProcessing` true, no valid winner) leave every ref
unchanged and emit nothing; the accept path clears the candidate map,
overwrites `lastBarcodeRef` and `lastScanTimeRef`, and emits exactly one
`ScanResult` through `onScan` — with an empty text when the frame capture
failed, otherwise with the enrichment continuation's text. -/
def flush (st : PipelineState) (now : Nat) (captureOk : Bool)
    (ai : AIResponse) : PipelineState × Option ScanResult :=
  if st.candidates.isEmpty || st.isProcessing then (st, none)
  else
    match selectWinner st.candidates with
    | none => (st, none)
    | some w =>
        let st' : PipelineState :=
          { candidates := [], lastBarcode := w.1, lastScanTime := now,
            isProcessing := false, selectionTimer := st.selectionTimer }
        if captureOk then
          (st', some { barcode := some (w.1, w.2.format),
                       text := some (enrichedText (extractTextWithAI ai)) })
        else
          (st', some { barcode := some (w.1, w.2.format), text := some "" })

/-- Candidate-map update of `handleBarcodeDetected`: increment the count of
an existing key in place (`existing.count++`), otherwise insert a fresh
entry at the end with count 1 and `firstSeen = now`. -/
def observe (cs : List Candidate) (value format source : String)
    (now : Nat) : List Candidate :=
  if cs.any (fun c => c.1 == value) then
    cs.map (fun c =>
      if c.1 == value then (c.1, { c.2 with count := c.2.count + 1 }) else c)
  else
    cs ++ [(value, ⟨format, source, 1, now⟩)]

/-- Full `handleBarcodeDetected`: drop the detection when its value equals
the last processed barcode within the hard-coded 3000 ms cooldown;
otherwise record the candidate and (re)schedule the 1500 ms selection
timer. -/
def handleBarcodeDetected (st : PipelineState)
    (value format source : String) (now : Nat) : PipelineState :=
  if value = st.lastBarcode ∧ now - st.lastScanTime < 3000 then st
  else
    { st with candidates := observe st.candidates value format source now,
              selectionTimer := some (now + 1500) }

/-- Emission behaviour of `performOCRScan` (the pure OCR capture path): a
text-only `ScanResult` is emitted only when the component is not busy, the
frame capture succeeded, and the extracted text passes
the guard requiring a non-empty, non-whitespace text different from the
`NO_TEXT_FOUND` sentinel;
a rejected promise is caught and emits nothing. -/
def performOCRScan (busy : Bool) (captureOk : Bool) (ai : AIResponse) :
    Option ScanResult :=
  if busy then none
  else if !captureOk then none
  else
    match extractTextWithAI ai with
    | .ok t =>
        if t ≠ "" ∧ jsTrim t ≠ "" ∧ t ≠ "NO_TEXT_FOUND" then
          some { barcode := none, text := some t }
        else none
    | .error _ => none

/-- State of `App`'s duplicate filter: `lastResult` and `lastScanTime`. -/
structure AppState where
  lastResult : String
  lastScanTime : Nat
  deriving Repr, DecidableEq

/-- The key `result.barcode?.value || result.text || ''` computed by
`App.handleScan`. -/
def resultKey (r : ScanResult) : String :=
  let b := match r.barcode with | some p => p.1 | none => ""
  if b ≠ "" then b
  else match r.text with | some t => t | none => ""

/-- Full `App.handleScan`: drop a result whose key repeats the previous one
within the 3000 ms `COOLDOWN`; otherwise record the key and time.  The
returned `Bool` says whether the result was added to the display list. -/
def handleScan (app : AppState) (r : ScanResult) (now : Nat) :
    AppState × Bool :=
  if resultKey r = app.lastResult ∧ now - app.lastScanTime < 3000 then
    (app, false)
  else ({ lastResult := resultKey r, lastScanTime := now }, true)

/-- Refs touched by the teardown section of `startScanning` (the reset that
runs on a camera facing-mode switch), together with the pipeline refs it
leaves alone. -/
structure ScannerState where
  ocrInterval : Option Nat
  codeReader : Bool
  quaggaRunning : Bool
  streamActive : Bool
  pipeline : PipelineState
  deriving Repr, DecidableEq

/-- Teardown section of `startScanning` (source lines 80-106): clears the
OCR interval, nulls the ZXing reader ref, stops Quagga and stops the video
stream's tracks.  It touches no other ref: in particular it leaves
`candidateBarcodesRef`, `barcodeSelectionTimerRef`, `lastBarcodeRef` and
`lastScanTimeRef` exactly as they were. -/
def startScanningReset (s : ScannerState) : ScannerState :=
  { s with ocrInterval := none, codeReader := false,
           quaggaRunning := false, streamActive := false }

/-- Length of the accumulator's barcode value (the empty value, hence 0, for the
initial `null` accumulator). -/
def accLen : Option Candidate → Nat
  | none => 0
  | some b => b.1.length

/-- Classification of collaborator outcomes for which the claims assert an
empty-string resolution: every failure case plus the no-text replies. -/
def aiFailsOrNoText : AIResponse → Bool
  | .noApiKey => true
  | .fetchThrows => true
  | .errorPayload => true
  | .noChoices => true
  | .content s => decide (jsTrim s = "NO_TEXT_FOUND" ∨ jsTrim s = "")

/-! Helper lemmas about the selection fold. -/

lemma length_pos_of_ne_empty (s : String) (h : s ≠ "") : 0 < s.length := by
  cases s with
  | mk data =>
      cases data with
      | nil => exact absurd rfl h
      | cons a l => simp [String.length]

lemma ne_empty_of_length_pos (s : String) (h : 0 < s.length) : s ≠ "" := by
  intro he
  subst he
  simp [String.length] at h

lemma selStep_false_none (c : Candidate) : selStep false none c = some c := by
  simp [selStep]

lemma selStep_false_some (b c : Candidate) :
    selStep false (some b) c =
      if b.1.length = 0 ∨ c.1.length > b.1.length ∨
          (c.1.length = b.1.length ∧ c.2.count > b.2.count) then some c
      else some b := by
  simp [selStep]

/-- Every step result is either the old accumulator or the freshly
considered candidate. -/
lemma selStep_cases (has : Bool) (b : Option Candidate) (c : Candidate) :
    selStep has b c = b ∨ selStep has b c = some c := by
  unfold selStep
  split
  · exact Or.inl rfl
  · cases b with
    | none => exact Or.inr rfl
    | some bb =>
        dsimp only
        split_ifs with h
        · exact Or.inr rfl
        · exact Or.inl rfl

/-- The fold result is either the initial accumulator or one of the list's
entries. -/
lemma selLoop_provenance (has : Bool) (cs : List Candidate)
    (b : Option Candidate) :
    cs.foldl (selStep has) b = b ∨ ∃ c ∈ cs, cs.foldl (selStep has) b = some c := by
  induction cs generalizing b with
  | nil => exact Or.inl rfl
  | cons c rest ih =>
      have hfold : (c :: rest).foldl (selStep has) b
          = rest.foldl (selStep has) (selStep has b c) := rfl
      rw [hfold]
      rcases ih (selStep has b c) with h | ⟨c', hc', h⟩
      · rcases selStep_cases has b c with hs | hs
        · exact Or.inl (h.trans hs)
        · exact Or.inr ⟨c, List.mem_cons_self c rest, h.trans hs⟩
      · exact Or.inr ⟨c', List.mem_cons_of_mem c hc', h⟩

/-- The accumulator's barcode never gets shorter along the fold
(high-priority pass disabled). -/
lemma selLoop_mono (cs : List Candidate) (b : Option Candidate) :
    accLen b ≤ accLen (cs.foldl (selStep false) b) := by
  induction cs generalizing b with
  | nil => exact le_refl _
  | cons c rest ih =>
      have hfold : (c :: rest).foldl (selStep false) b
          = rest.foldl (selStep false) (selStep false b c) := rfl
      rw [hfold]
      refine le_trans ?_ (ih (selStep false b c))
      cases b with
      | none => simp [selStep_false_none, accLen]
      | some bb =>
          rw [selStep_false_some]
          split
          · rename_i hcond
            simp only [accLen]
            rcases hcond with h0 | hgt | ⟨heq, _⟩
            · omega
            · omega
            · omega
          · exact le_refl _

/-- Every candidate fed to the fold ends up no longer than the final
accumulator's barcode (high-priority pass disabled). -/
lemma selLoop_dominates (cs : List Candidate) (b : Option Candidate) :
    ∀ c ∈ cs, c.1.length ≤ accLen (cs.foldl (selStep false) b) := by
  induction cs generalizing b with
  | nil => intro c hc; exact absurd hc (List.not_mem_nil c)
  | cons c rest ih =>
      intro x hx
      have hfold : (c :: rest).foldl (selStep false) b
          = rest.foldl (selStep false) (selStep false b c) := rfl
      rw [hfold]
      rcases List.mem_cons.mp hx with hxc | hxr
      · subst hxc
        refine le_trans ?_ (selLoop_mono rest (selStep false b x))
        cases b with
        | none => simp [selStep_false_none, accLen]
        | some bb =>
            rw [selStep_false_some]
            split
            · simp [accLen]
            · rename_i hcond
              push_neg at hcond
              simp only [accLen]
              omega
      · exact ih (selStep false b c) x hxr

@[simp] lemma accLen_some (b : Candidate) : accLen (some b) = b.1.length := rfl

@[simp] lemma accLen_none : accLen none = 0 := rfl

/-- Count maximality seeded at the accumulator: when the final accumulator
has the same (positive) length as the seed candidate, its hit count is at
least the seed's. -/
lemma selLoop_count_acc (cs : List Candidate) :
    ∀ x : Candidate, 0 < x.1.length →
      x.1.length = accLen (cs.foldl (selStep false) (some x)) →
      ∃ w, cs.foldl (selStep false) (some x) = some w ∧ x.2.count ≤ w.2.count := by
  induction cs with
  | nil => intro x _ _; exact ⟨x, rfl, le_refl _⟩
  | cons c rest ih =>
      intro x hpos hlen
      have hfold : (c :: rest).foldl (selStep false) (some x)
          = rest.foldl (selStep false) (selStep false (some x) c) := rfl
      rw [hfold] at hlen ⊢
      rw [selStep_false_some] at hlen ⊢
      by_cases hcond : x.1.length = 0 ∨ c.1.length > x.1.length ∨
          (c.1.length = x.1.length ∧ c.2.count > x.2.count)
      · rw [if_pos hcond] at hlen ⊢
        rcases hcond with h0 | hgt | ⟨heq, hcnt⟩
        · omega
        · have hm := selLoop_mono rest (some c)
          simp only [accLen_some] at hm
          omega
        · have hc : 0 < c.1.length := by omega
          obtain ⟨w, hw, hcw⟩ := ih c hc (by omega)
          exact ⟨w, hw, le_trans (le_of_lt hcnt) hcw⟩
      · rw [if_neg hcond] at hlen ⊢
        exact ih x hpos hlen

/-- Count maximality for list members: a member sharing the final
accumulator's (positive) length has at most its hit count. -/
lemma selLoop_count_mem (cs : List Candidate) :
    ∀ (b : Option Candidate) (c : Candidate), c ∈ cs → 0 < c.1.length →
      c.1.length = accLen (cs.foldl (selStep false) b) →
      ∃ w, cs.foldl (selStep false) b = some w ∧ c.2.count ≤ w.2.count := by
  induction cs with
  | nil => intro b c hc _ _; exact absurd hc (List.not_mem_nil c)
  | cons d rest ih =>
      intro b c hc hpos hlen
      have hfold : (d :: rest).foldl (selStep false) b
          = rest.foldl (selStep false) (selStep false b d) := rfl
      rw [hfold] at hlen ⊢
      rcases List.mem_cons.mp hc with hcd | hcr
      · subst hcd
        cases b with
        | none =>
            rw [selStep_false_none] at hlen ⊢
            exact selLoop_count_acc rest c hpos hlen
        | some bb =>
            rw [selStep_false_some] at hlen ⊢
            by_cases hcond : bb.1.length = 0 ∨ c.1.length > bb.1.length ∨
                (c.1.length = bb.1.length ∧ c.2.count > bb.2.count)
            · rw [if_pos hcond] at hlen ⊢
              exact selLoop_count_acc rest c hpos hlen
            · rw [if_neg hcond] at hlen ⊢
              push_neg at hcond
              obtain ⟨h0, hle, himp⟩ := hcond
              have hm := selLoop_mono rest (some bb)
              simp only [accLen_some] at hm
              have hebb : c.1.length = bb.1.length := by omega
              have hcnt : c.2.count ≤ bb.2.count := himp hebb
              obtain ⟨w, hw, hbw⟩ :=
                selLoop_count_acc rest bb (by omega) (by omega)
              exact ⟨w, hw, le_trans hcnt hbw⟩
      · exact ih (selStep false b d) c hcr hpos hlen

/-- With the high-priority pass enabled, only `code_128` candidates can
ever occupy the accumulator. -/
lemma selLoop_code128 (cs : List Candidate) :
    ∀ b : Option Candidate,
      (∀ x, b = some x → x.2.format = "code_128") →
      ∀ x, cs.foldl (selStep true) b = some x → x.2.format = "code_128" := by
  induction cs with
  | nil => intro b hb x hx; exact hb x hx
  | cons c rest ih =>
      intro b hb x hx
      refine ih (selStep true b c) ?_ x hx
      intro y hy
      unfold selStep at hy
      by_cases hf : c.2.format = "code_128"
      · rw [if_neg (by simp [hf])] at hy
        cases b with
        | none =>
            have := Option.some.inj hy
            rw [← this]
            exact hf
        | some bb =>
            dsimp only at hy
            split_ifs at hy with hcnd
            · have := Option.some.inj hy
              rw [← this]
              exact hf
            · exact hb y (by rw [← hy])
      · rw [if_pos ⟨rfl, hf⟩] at hy
        exact hb y hy

/-- Reduction of `selectWinner` once the loop result is known. -/
lemma selectWinner_of_loop (cs : List Candidate) (b : Candidate)
    (hl : selectLoop cs = some b) :
    selectWinner cs = if b.1.length = 0 then none else some b := by
  unfold selectWinner
  rw [hl]

/-- Reduction of `selectWinner` when the loop ends with a falsy best. -/
lemma selectWinner_of_loop_none (cs : List Candidate)
    (hl : selectLoop cs = none) : selectWinner cs = none := by
  unfold selectWinner
  rw [hl]

/-- A winner always comes out of the loop with a positive length. -/
lemma selectWinner_loop (cs : List Candidate) (w : Candidate)
    (hw : selectWinner cs = some w) :
    selectLoop cs = some w ∧ 0 < w.1.length := by
  cases hl : selectLoop cs with
  | none => rw [selectWinner_of_loop_none cs hl] at hw; cases hw
  | some b =>
      rw [selectWinner_of_loop cs b hl] at hw
      by_cases h0 : b.1.length = 0
      · rw [if_pos h0] at hw; cases hw
      · rw [if_neg h0] at hw
        have hb := Option.some.inj hw
        subst hb
        exact ⟨rfl, by omega⟩

/-- A candidate returned by `selectWinner` has a non-empty value. -/
lemma selectWinner_value_ne_empty (cs : List Candidate) (w : Candidate)
    (hw : selectWinner cs = some w) : w.1 ≠ "" := by
  have h := (selectWinner_loop cs w hw).2
  exact ne_empty_of_length_pos w.1 h

/-- A candidate returned by `selectWinner` is one of the candidates. -/
lemma selectWinner_mem (cs : List Candidate) (w : Candidate)
    (hw : selectWinner cs = some w) : w ∈ cs := by
  obtain ⟨hl, _⟩ := selectWinner_loop cs w hw
  unfold selectLoop at hl
  rcases selLoop_provenance (hasCode128 cs) cs none with h | ⟨c, hc, h⟩
  · rw [hl] at h; cases h
  · rw [hl] at h
    have hwc := Option.some.inj h
    rw [hwc]
    exact hc

/-- The candidate set is non-empty whenever a winner exists. -/
lemma selectWinner_ne_nil (cs : List Candidate) (w : Candidate)
    (hw : selectWinner cs = some w) : cs ≠ [] := by
  intro he
  subst he
  exact absurd (selectWinner_mem [] w hw) (List.not_mem_nil w)

/-- Claim C1: whenever the candidate set aggregated in one arbitration
window contains a candidate with the high-priority format `code_128`, a
candidate selected by `selectBestBarcode` always has format `code_128` — a
non-high-priority candidate can never be the selection, regardless of hit
counts or value lengths. -/
theorem code128_priority (cs : List Candidate) (w : Candidate)
    (hhas : hasCode128 cs = true) (hw : selectWinner cs = some w) :
    w.2.format = "code_128" := by
  obtain ⟨hl, _⟩ := selectWinner_loop cs w hw
  unfold selectLoop at hl
  rw [hhas] at hl
  exact selLoop_code128 cs none (fun x hx => nomatch hx) w hl

/-- Concrete check of claim C1 on the spec's scenario: an `ean` candidate
with two hits loses to a single-hit `code_128` candidate. -/
theorem code128_priority_witness :
    hasCode128 [("111", ⟨"ean", "ZXing", 2, 0⟩),
        ("999999999999999999", ⟨"code_128", "Quagga", 1, 100⟩)] = true ∧
    selectWinner [("111", ⟨"ean", "ZXing", 2, 0⟩),
        ("999999999999999999", ⟨"code_128", "Quagga", 1, 100⟩)]
      = some ("999999999999999999", ⟨"code_128", "Quagga", 1, 100⟩) ∧
    ("999999999999999999",
        (⟨"code_128", "Quagga", 1, 100⟩ : CandidateData)).2.format = "code_128" := by
  refine ⟨by decide, by decide, ?_⟩
  exact code128_priority
    [("111", ⟨"ean", "ZXing", 2, 0⟩),
      ("999999999999999999", ⟨"code_128", "Quagga", 1, 100⟩)]
    ("999999999999999999", ⟨"code_128", "Quagga", 1, 100⟩)
    (by decide) (by decide)

/-- Claim C2: with no `code_128` candidate in the set, any candidate
selected by `selectBestBarcode` is a member of the set with maximal value
length, with maximal hit count among the candidates of that maximal
length; moreover a selection exists whenever some candidate has a
non-empty value. -/
theorem longest_then_most_hits (cs : List Candidate)
    (hhas : hasCode128 cs = false) :
    (∀ w, selectWinner cs = some w →
        w ∈ cs ∧ (∀ c ∈ cs, c.1.length ≤ w.1.length) ∧
        (∀ c ∈ cs, c.1.length = w.1.length → c.2.count ≤ w.2.count)) ∧
    ((∃ c ∈ cs, c.1 ≠ "") → ∃ w, selectWinner cs = some w) := by
  have hloop : selectLoop cs = cs.foldl (selStep false) none := by
    unfold selectLoop
    rw [hhas]
  constructor
  · intro w hw
    obtain ⟨hl, hpos⟩ := selectWinner_loop cs w hw
    rw [hloop] at hl
    refine ⟨selectWinner_mem cs w hw, ?_, ?_⟩
    · intro c hc
      have hd := selLoop_dominates cs none c hc
      rw [hl] at hd
      simpa using hd
    · intro c hc hlen
      obtain ⟨w', hw', hcw⟩ := selLoop_count_mem cs none c hc (by omega)
        (by rw [hl]; simpa using hlen)
      rw [hl] at hw'
      have hww : w = w' := Option.some.inj hw'
      rw [hww]
      exact hcw
  · rintro ⟨c, hc, hne⟩
    have hpos := length_pos_of_ne_empty c.1 hne
    have hdom := selLoop_dominates cs none c hc
    cases hl : cs.foldl (selStep false) none with
    | none =>
        rw [hl] at hdom
        simp at hdom
        omega
    | some b =>
        rw [hl] at hdom
        simp at hdom
        refine ⟨b, ?_⟩
        rw [selectWinner_of_loop cs b (by rw [hloop]; exact hl),
          if_neg (by omega)]

/-- Concrete check of claim C2: among product barcodes only, the longer
value wins, and the maximality facts hold for it. -/
theorem longest_then_most_hits_witness :
    ∃ w, selectWinner [("111", ⟨"ean", "ZXing", 2, 0⟩),
        ("222222", ⟨"upc", "Quagga", 1, 5⟩)] = some w ∧
      w ∈ [("111", (⟨"ean", "ZXing", 2, 0⟩ : CandidateData)),
        ("222222", ⟨"upc", "Quagga", 1, 5⟩)] ∧
      ∀ c ∈ [("111", (⟨"ean", "ZXing", 2, 0⟩ : CandidateData)),
        ("222222", ⟨"upc", "Quagga", 1, 5⟩)], c.1.length ≤ w.1.length := by
  obtain ⟨hall, hex⟩ := longest_then_most_hits
    [("111", ⟨"ean", "ZXing", 2, 0⟩), ("222222", ⟨"upc", "Quagga", 1, 5⟩)]
    (by decide)
  obtain ⟨w, hw⟩ := hex ⟨("111", ⟨"ean", "ZXing", 2, 0⟩), by simp, by decide⟩
  obtain ⟨hmem, hdom, _⟩ := hall w hw
  exact ⟨w, hw, hmem, hdom⟩

lemma enrichedText_ok (t : String) :
    enrichedText (.ok t) = if t = "" then "(No text found)" else t := rfl

lemma extractTextWithAI_content (s : String) :
    extractTextWithAI (.content s)
      = if jsTrim s = "NO_TEXT_FOUND" ∨ jsTrim s = "" then .ok ""
        else .ok (jsTrim s) := by
  unfold extractTextWithAI extractTextBody
  dsimp only
  by_cases hc : jsTrim s = "NO_TEXT_FOUND" ∨ jsTrim s = ""
  · rw [if_pos hc]
  · rw [if_neg hc]

/-- Claim C3 counterexample: a thrown `fetch` during enrichment and the
collaborator's explicit `NO_TEXT_FOUND` reply produce the same final
`text` value `(No text found)`.  The extraction-failure outcome is not
mapped to a distinct sentinel because `extractTextWithAI` catches the
error and resolves with the empty string, which the `.then` handler turns into the
no-text sentinel. -/
theorem failure_and_no_text_collide :
    enrichedText (extractTextWithAI .fetchThrows) = "(No text found)" ∧
    enrichedText (extractTextWithAI (.content "NO_TEXT_FOUND"))
      = "(No text found)" ∧
    enrichedText (extractTextWithAI .fetchThrows)
      = enrichedText (extractTextWithAI (.content "NO_TEXT_FOUND")) := by
  exact ⟨by decide, by decide, by decide⟩

/-- Claim C3 amended: a successful extraction with non-trivial text is
distinguishable from the no-text outcome, but enrichment failure and
explicit no-text both surface as the single sentinel `(No text found)`
(the `(AI extraction failed)` sentinel of the rejection handler is
produced only for a rejected promise, which `extractTextWithAI` never
returns). -/
theorem enrichment_outcomes (s : String)
    (h1 : jsTrim s ≠ "") (h2 : jsTrim s ≠ "NO_TEXT_FOUND")
    (h3 : jsTrim s ≠ "(No text found)") :
    enrichedText (extractTextWithAI (.content s)) = jsTrim s ∧
    enrichedText (extractTextWithAI (.content s)) ≠ "(No text found)" ∧
    enrichedText (extractTextWithAI .fetchThrows) = "(No text found)" ∧
    enrichedText (extractTextWithAI .errorPayload) = "(No text found)" ∧
    enrichedText (extractTextWithAI (.content "NO_TEXT_FOUND"))
      = "(No text found)" := by
  have hnc : ¬(jsTrim s = "NO_TEXT_FOUND" ∨ jsTrim s = "") := by
    rintro (h | h)
    · exact h2 h
    · exact h1 h
  have hbody : extractTextWithAI (.content s) = .ok (jsTrim s) := by
    rw [extractTextWithAI_content, if_neg hnc]
  have henr : enrichedText (extractTextWithAI (.content s)) = jsTrim s := by
    rw [hbody, enrichedText_ok, if_neg h1]
  refine ⟨henr, ?_, by decide, by decide, by decide⟩
  rw [henr]
  exact h3

/-- Concrete check of the amended C3 on the content `HELLO WORLD`. -/
theorem enrichment_outcomes_witness :
    enrichedText (extractTextWithAI (.content "HELLO WORLD")) = "HELLO WORLD" ∧
    enrichedText (extractTextWithAI (.content "HELLO WORLD"))
      ≠ "(No text found)" ∧
    enrichedText (extractTextWithAI .fetchThrows) = "(No text found)" ∧
    enrichedText (extractTextWithAI .errorPayload) = "(No text found)" ∧
    enrichedText (extractTextWithAI (.content "NO_TEXT_FOUND"))
      = "(No text found)" := by
  have h := enrichment_outcomes "HELLO WORLD" (by decide) (by decide) (by decide)
  simpa using h

/-- Claim C10: for every collaborator outcome the promise returned by
`extractTextWithAI` resolves (never rejects) with a string that is empty in
every failure and no-text case; the enrichment emission therefore always
goes through the fulfilled-promise branch, so the rejection handler of
`selectBestBarcode` that writes `(AI extraction failed)` is
unreachable. -/
theorem extract_never_rejects (r : AIResponse) :
    ∃ s, extractTextWithAI r = .ok s ∧
      (aiFailsOrNoText r = true → s = "") ∧
      enrichedText (extractTextWithAI r)
        = if s = "" then "(No text found)" else s := by
  cases r with
  | noApiKey => exact ⟨"", rfl, fun _ => rfl, rfl⟩
  | fetchThrows => exact ⟨"", rfl, fun _ => rfl, rfl⟩
  | errorPayload => exact ⟨"", rfl, fun _ => rfl, rfl⟩
  | noChoices => exact ⟨"", rfl, fun _ => rfl, rfl⟩
  | content s =>
      by_cases hc : jsTrim s = "NO_TEXT_FOUND" ∨ jsTrim s = ""
      · have hbody : extractTextWithAI (.content s) = .ok "" := by
          rw [extractTextWithAI_content, if_pos hc]
        refine ⟨"", hbody, fun _ => rfl, ?_⟩
        rw [hbody, enrichedText_ok]
      · have hbody : extractTextWithAI (.content s) = .ok (jsTrim s) := by
          rw [extractTextWithAI_content, if_neg hc]
        refine ⟨jsTrim s, hbody, ?_, ?_⟩
        · intro h
          exact absurd (of_decide_eq_true h) hc
        · rw [hbody, enrichedText_ok]

/-- Concrete check of C10 on a thrown `fetch`: the promise resolves with
the empty string. -/
theorem extract_never_rejects_witness :
    ∃ s, extractTextWithAI .fetchThrows = .ok s ∧
      (aiFailsOrNoText .fetchThrows = true → s = "") ∧
      enrichedText (extractTextWithAI .fetchThrows)
        = if s = "" then "(No text found)" else s :=
  extract_never_rejects .fetchThrows

/-- Claim C4 counterexample: when the arbitration timer fires while the
processing flag is set, `selectBestBarcode` returns before the clearing
step and the non-empty candidate set survives into the next round,
contradicting the claim that the flush always leaves the set empty. -/
theorem flush_busy_keeps_candidates :
    (flush ⟨[("ABC123", ⟨"code_128", "ZXing", 2, 0⟩)], "", 0, true, some 1⟩
        1500 true .noApiKey).1.candidates
      = [("ABC123", ⟨"code_128", "ZXing", 2, 0⟩)] ∧
    ([("ABC123", (⟨"code_128", "ZXing", 2, 0⟩ : CandidateData))]
      : List Candidate) ≠ [] := by
  exact ⟨by decide, by decide⟩

/-- Claim C4 amended: the flush clears the candidate set exactly on the
accept path — processing flag clear and a valid winner found; on every
early return (busy flag, or no valid winner, including the trivially empty
set) the candidate set is left exactly as it was. -/
theorem flush_clears_only_on_accept (st : PipelineState) (now : Nat)
    (cap : Bool) (ai : AIResponse) :
    (st.isProcessing = false → (∃ w, selectWinner st.candidates = some w) →
        (flush st now cap ai).1.candidates = []) ∧
    (st.isProcessing = true ∨ selectWinner st.candidates = none →
        (flush st now cap ai).1.candidates = st.candidates) := by
  constructor
  · rintro hproc ⟨w, hw⟩
    have hne : st.candidates ≠ [] := selectWinner_ne_nil st.candidates w hw
    unfold flush
    rw [if_neg (by simp [hproc, hne])]
    rw [hw]
    cases cap with
    | true => rfl
    | false => rfl
  · rintro (hproc | hwin)
    · unfold flush
      rw [if_pos (by simp [hproc])]
    · unfold flush
      by_cases hg : (st.candidates.isEmpty || st.isProcessing) = true
      · rw [if_pos hg]
      · rw [if_neg hg, hwin]

/-- Concrete check of the amended C4: a flush over a non-busy state with a
valid winner empties the candidate set. -/
theorem flush_clears_only_on_accept_witness :
    (flush ⟨[("ABC123", ⟨"code_128", "ZXing", 2, 0⟩)], "", 0, false, some 1⟩
        1500 true .noApiKey).1.candidates = [] :=
  (flush_clears_only_on_accept
      ⟨[("ABC123", ⟨"code_128", "ZXing", 2, 0⟩)], "", 0, false, some 1⟩
      1500 true .noApiKey).1 rfl
    ⟨("ABC123", ⟨"code_128", "ZXing", 2, 0⟩), by decide⟩

/-- Claim C8: when the arbitration timer fires over an empty candidate set
the flush selects nothing, changes no state and emits nothing. -/
theorem flush_empty_no_action (st : PipelineState) (now : Nat) (cap : Bool)
    (ai : AIResponse) (h : st.candidates = []) :
    flush st now cap ai = (st, none) := by
  unfold flush
  rw [if_pos (by simp [h])]

/-- Concrete check of C8 on an empty candidate set. -/
theorem flush_empty_no_action_witness :
    flush ⟨[], "ABC", 7, false, none⟩ 1500 true .noApiKey
      = (⟨[], "ABC", 7, false, none⟩, none) :=
  flush_empty_no_action ⟨[], "ABC", 7, false, none⟩ 1500 true .noApiKey rfl

/-- A singleton candidate set with a non-empty value always selects its
sole entry, whatever the format. -/
lemma selectWinner_singleton (v : String) (d : CandidateData) (hv : v ≠ "") :
    selectWinner [(v, d)] = some (v, d) := by
  have hlen := length_pos_of_ne_empty v hv
  have hloop : selectLoop [(v, d)] = some (v, d) := by
    unfold selectLoop
    show selStep (hasCode128 [(v, d)]) none (v, d) = some (v, d)
    unfold selStep
    rw [if_neg ?hneg]
    case hneg =>
      rintro ⟨hh, hf⟩
      unfold hasCode128 at hh
      simp at hh
      exact hf hh
  rw [selectWinner_of_loop _ _ hloop, if_neg (by simp; omega)]

/-- The accept path of the flush: with the processing flag clear and a
winner found, the candidate set is cleared, the last-accepted refs are
overwritten with the winner and the current time, and a result carrying
the winner's value and format is emitted. -/
lemma flush_accepts (st : PipelineState) (w : Candidate) (now : Nat)
    (cap : Bool) (ai : AIResponse) (hproc : st.isProcessing = false)
    (hw : selectWinner st.candidates = some w) :
    (flush st now cap ai).1.candidates = [] ∧
    (flush st now cap ai).1.lastBarcode = w.1 ∧
    (flush st now cap ai).1.lastScanTime = now ∧
    ∃ r, (flush st now cap ai).2 = some r ∧
      r.barcode = some (w.1, w.2.format) := by
  have hne : st.candidates ≠ [] := selectWinner_ne_nil st.candidates w hw
  unfold flush
  rw [if_neg (by simp [hproc, hne])]
  rw [hw]
  cases cap with
  | true => exact ⟨rfl, rfl, rfl, _, rfl, rfl⟩
  | false => exact ⟨rfl, rfl, rfl, _, rfl, rfl⟩

/-- Claim C5: with the last accepted value `v` recorded at time `T` and
the 3000 ms cooldown, a detection of `v` arriving strictly before
`T + 3000` is silently dropped with no state change at all, while a
detection of `v` at or after `T + 3000` is recorded and — once the window
timer fires — accepted: the last-accepted refs are overwritten and a
result carrying `v` is emitted. -/
theorem cooldown_same_value (st : PipelineState) (v fmt src : String)
    (t1 t2 now2 : Nat) (cap : Bool) (ai : AIResponse)
    (hv : st.lastBarcode = v) :
    (t1 < st.lastScanTime + 3000 → handleBarcodeDetected st v fmt src t1 = st) ∧
    (st.lastScanTime + 3000 ≤ t2 → v ≠ "" → st.candidates = [] →
      st.isProcessing = false →
      (handleBarcodeDetected st v fmt src t2).candidates
        = [(v, ⟨fmt, src, 1, t2⟩)] ∧
      (flush (handleBarcodeDetected st v fmt src t2) now2 cap ai).1.lastBarcode
        = v ∧
      (flush (handleBarcodeDetected st v fmt src t2) now2 cap ai).1.lastScanTime
        = now2 ∧
      ∃ r, (flush (handleBarcodeDetected st v fmt src t2) now2 cap ai).2
          = some r ∧ r.barcode = some (v, fmt)) := by
  constructor
  · intro ht
    unfold handleBarcodeDetected
    rw [if_pos ⟨hv.symm, by omega⟩]
  · intro ht hvne hemp hproc
    have hstep : handleBarcodeDetected st v fmt src t2
        = { st with candidates := [(v, ⟨fmt, src, 1, t2⟩)],
                    selectionTimer := some (t2 + 1500) } := by
      unfold handleBarcodeDetected
      rw [if_neg (by rintro ⟨-, h2⟩; omega)]
      unfold observe
      rw [hemp]
      rfl
    have hproc1 : (handleBarcodeDetected st v fmt src t2).isProcessing = false := by
      rw [hstep]
      exact hproc
    have hw : selectWinner (handleBarcodeDetected st v fmt src t2).candidates
        = some (v, ⟨fmt, src, 1, t2⟩) := by
      rw [hstep]
      exact selectWinner_singleton v ⟨fmt, src, 1, t2⟩ hvne
    obtain ⟨hcand, hlast, htime, r, hr, hbar⟩ :=
      flush_accepts (handleBarcodeDetected st v fmt src t2)
        (v, ⟨fmt, src, 1, t2⟩) now2 cap ai hproc1 hw
    exact ⟨by rw [hstep], hlast, htime, r, hr, hbar⟩

/-- Concrete check of C5 at `T = 100000`: the same value at `T + 1000` is
dropped, and at `T + 3100` it is re-accepted with the refs overwritten. -/
theorem cooldown_same_value_witness :
    (handleBarcodeDetected ⟨[], "ABC123", 100000, false, none⟩
        "ABC123" "code_128" "ZXing" 101000 = ⟨[], "ABC123", 100000, false, none⟩) ∧
    ((handleBarcodeDetected ⟨[], "ABC123", 100000, false, none⟩
        "ABC123" "code_128" "ZXing" 103100).candidates
      = [("ABC123", ⟨"code_128", "ZXing", 1, 103100⟩)] ∧
     (flush (handleBarcodeDetected ⟨[], "ABC123", 100000, false, none⟩
        "ABC123" "code_128" "ZXing" 103100) 104600 true .noApiKey).1.lastBarcode
      = "ABC123" ∧
     (flush (handleBarcodeDetected ⟨[], "ABC123", 100000, false, none⟩
        "ABC123" "code_128" "ZXing" 103100) 104600 true .noApiKey).1.lastScanTime
      = 104600 ∧
     ∃ r, (flush (handleBarcodeDetected ⟨[], "ABC123", 100000, false, none⟩
        "ABC123" "code_128" "ZXing" 103100) 104600 true .noApiKey).2
        = some r ∧ r.barcode = some ("ABC123", "code_128")) := by
  have h := cooldown_same_value ⟨[], "ABC123", 100000, false, none⟩
    "ABC123" "code_128" "ZXing" 101000 103100 104600 true .noApiKey rfl
  exact ⟨h.1 (by decide), h.2 (by decide) (by decide) rfl rfl⟩

/-- Claim C6: a winning candidate whose value differs from the last
accepted value is accepted by the flush — the last-accepted refs are
overwritten and a result carrying it is emitted — and `App.handleScan`
then records it, regardless of how recently the previous value was
accepted on either side. -/
theorem different_value_accepted (st : PipelineState) (app : AppState)
    (w : Candidate) (now now2 : Nat) (cap : Bool) (ai : AIResponse)
    (hproc : st.isProcessing = false)
    (hw : selectWinner st.candidates = some w)
    (_hdiff : w.1 ≠ st.lastBarcode) (hdiff2 : w.1 ≠ app.lastResult) :
    ∃ r, (flush st now cap ai).2 = some r ∧
      r.barcode = some (w.1, w.2.format) ∧
      (flush st now cap ai).1.lastBarcode = w.1 ∧
      (handleScan app r now2).2 = true := by
  obtain ⟨hcand, hlast, htime, r, hr, hbar⟩ :=
    flush_accepts st w now cap ai hproc hw
  refine ⟨r, hr, hbar, hlast, ?_⟩
  have hkey : resultKey r = w.1 := by
    unfold resultKey
    rw [hbar]
    dsimp only
    rw [if_pos (selectWinner_value_ne_empty st.candidates w hw)]
  unfold handleScan
  rw [if_neg (by rintro ⟨hk, -⟩; rw [hkey] at hk; exact hdiff2 hk)]

/-- Concrete check of C6: a different value is accepted and recorded by
the app even 1 ms after the previous acceptance. -/
theorem different_value_accepted_witness :
    ∃ r, (flush ⟨[("999", ⟨"ean", "ZXing", 1, 0⟩)], "ABC123", 999999, false, none⟩
        1000000 true .noApiKey).2 = some r ∧
      r.barcode = some ("999", "ean") ∧
      (flush ⟨[("999", ⟨"ean", "ZXing", 1, 0⟩)], "ABC123", 999999, false, none⟩
        1000000 true .noApiKey).1.lastBarcode = "999" ∧
      (handleScan ⟨"ABC123", 999999⟩ r 1000000).2 = true :=
  different_value_accepted
    ⟨[("999", ⟨"ean", "ZXing", 1, 0⟩)], "ABC123", 999999, false, none⟩
    ⟨"ABC123", 999999⟩ ("999", ⟨"ean", "ZXing", 1, 0⟩)
    1000000 1000000 true .noApiKey rfl (by decide) (by decide) (by decide)

/-- Claim C7 counterexample: re-running `startScanning` (the camera
facing-mode switch) neither cancels a pending arbitration timer nor clears
the candidate set — both survive the reset, contradicting the claim. -/
theorem reset_keeps_timer_and_candidates :
    (startScanningReset ⟨some 7, true, true, true,
        ⟨[("X1", ⟨"ean", "ZXing", 1, 0⟩)], "OLD", 500, false, some 42⟩⟩
      ).pipeline.selectionTimer = some 42 ∧
    (startScanningReset ⟨some 7, true, true, true,
        ⟨[("X1", ⟨"ean", "ZXing", 1, 0⟩)], "OLD", 500, false, some 42⟩⟩
      ).pipeline.candidates ≠ [] := by
  exact ⟨rfl, by decide⟩

/-- Claim C7 amended: the reset stops the decoder adapters (ZXing reader
nulled, Quagga stopped, stream tracks stopped) and clears the OCR
interval, and leaves the whole pipeline state — last-accepted value and
time (so the cooldown persists), but also the pending arbitration timer
and the candidate set — completely unchanged. -/
theorem reset_effects (s : ScannerState) :
    (startScanningReset s).ocrInterval = none ∧
    (startScanningReset s).codeReader = false ∧
    (startScanningReset s).quaggaRunning = false ∧
    (startScanningReset s).streamActive = false ∧
    (startScanningReset s).pipeline = s.pipeline := by
  exact ⟨rfl, rfl, rfl, rfl, rfl⟩

/-- Claim C9: every result the barcode pipeline's flush hands to `onScan`
carries a populated barcode with a non-empty value, and the pure OCR
capture path emits only results whose text is non-empty. -/
theorem emissions_always_populated :
    (∀ (st : PipelineState) (now : Nat) (cap : Bool) (ai : AIResponse)
        (r : ScanResult), (flush st now cap ai).2 = some r →
        ∃ v f, r.barcode = some (v, f) ∧ v ≠ "") ∧
    (∀ (busy cap : Bool) (ai : AIResponse) (r : ScanResult),
        performOCRScan busy cap ai = some r →
        ∃ t, r.text = some t ∧ t ≠ "") := by
  constructor
  · intro st now cap ai r hr
    unfold flush at hr
    by_cases hg : (st.candidates.isEmpty || st.isProcessing) = true
    · rw [if_pos hg] at hr
      cases hr
    · rw [if_neg hg] at hr
      cases hw : selectWinner st.candidates with
      | none =>
          rw [hw] at hr
          cases hr
      | some w =>
          rw [hw] at hr
          have hvne := selectWinner_value_ne_empty st.candidates w hw
          cases cap with
          | true =>
              have hre := Option.some.inj hr
              exact ⟨w.1, w.2.format, by rw [← hre], hvne⟩
          | false =>
              have hre := Option.some.inj hr
              exact ⟨w.1, w.2.format, by rw [← hre], hvne⟩
  · intro busy cap ai r hr
    unfold performOCRScan at hr
    by_cases hb : busy = true
    · rw [if_pos hb] at hr
      cases hr
    · rw [if_neg hb] at hr
      by_cases hc : (!cap) = true
      · rw [if_pos hc] at hr
        cases hr
      · rw [if_neg hc] at hr
        cases hai : extractTextWithAI ai with
        | ok t =>
            rw [hai] at hr
            dsimp only at hr
            by_cases hguard : t ≠ "" ∧ jsTrim t ≠ "" ∧ t ≠ "NO_TEXT_FOUND"
            · rw [if_pos hguard] at hr
              have hre := Option.some.inj hr
              exact ⟨t, by rw [← hre], hguard.1⟩
            · rw [if_neg hguard] at hr
              cases hr
        | error e =>
            rw [hai] at hr
            cases hr

/-- Concrete check of C9 on the OCR path: an emitted result has non-empty
text. -/
theorem emissions_always_populated_witness :
    ∃ t, (ScanResult.mk none (some "HELLO")).text = some t ∧ t ≠ "" :=
  emissions_always_populated.2 false true (.content "HELLO")
    (ScanResult.mk none (some "HELLO")) (by decide)

end Scanner
